import Mathlib

/-!
Verification of the mafia-server room session engine.

The TypeScript sources are shallowly embedded:

* JavaScript `Map<string, V>` values (insertion-ordered, `set` overwrites in
  place) become association lists `List (String × V)` with `mapGet`, `mapSet`,
  `mapDelete` mirroring `Map.get`, `Map.set`, `Map.delete`.
* `Player`, `Room` and the phase/stage/role unions become Lean structures and
  inductives with the same fields (`src/types/player.types.ts`,
  `src/types/room.types.ts`).  A `timer?: NodeJS.Timeout` field becomes
  `Option Bool`: `none` is an `undefined` field, `some true` a handle whose
  callback is still pending, `some false` a handle that has fired or been
  cancelled (`clearTimeout` followed by an explicit `undefined` assignment is
  modelled as setting the field to `none`).
* The random shuffle `[...].sort(() => Math.random() - 0.5)` is modelled by
  quantifying over the shuffled order where it matters; properties proved about
  role allocation are counting properties independent of the order.
* `setTimeout` callbacks are embedded as explicit step functions on `Room`
  (`PhaseService.phaseTimerFire`, `PhaseService.dayStageTimerFire`) whose body
  is the callback body from `phase.service.ts`.
* Socket emissions become an explicit `Emit` list returned next to the updated
  state, so "no notification" is `= []`.
-/

inductive Team where
  | mafia
  | town
deriving DecidableEq, Repr

inductive RoleName where
  | mafia
  | detective
  | doctor
  | citizen
deriving DecidableEq, Repr

structure Role where
  roleName : RoleName
  team : Team
deriving DecidableEq, Repr

/-- The ROLES constant of `roles.service.ts` (also inlined in the gateways). -/
def ROLES.mafia : Role := ⟨RoleName.mafia, Team.mafia⟩

def ROLES.detective : Role := ⟨RoleName.detective, Team.town⟩

def ROLES.doctor : Role := ⟨RoleName.doctor, Team.town⟩

def ROLES.citizen : Role := ⟨RoleName.citizen, Team.town⟩

/-- Player record from `src/types/player.types.ts`. -/
structure Player where
  socketId : String
  username : String
  role : Option Role := none
  alive : Bool
deriving DecidableEq, Repr

inductive Phase where
  | lobby
  | night
  | day
  | ended
deriving DecidableEq, Repr

inductive DayStage where
  | discussion
  | voting
deriving DecidableEq, Repr

/-- Lookup in an insertion-ordered string-keyed map (`Map.prototype.get`). -/
def mapGet {α : Type} : List (String × α) → String → Option α
  | [], _ => none
  | (k, v) :: t, key => if k = key then some v else mapGet t key

/-- Update in an insertion-ordered string-keyed map (`Map.prototype.set`):
an existing key keeps its position, a new key is appended. -/
def mapSet {α : Type} : List (String × α) → String → α → List (String × α)
  | [], key, val => [(key, val)]
  | (k, v) :: t, key, val =>
      if k = key then (key, val) :: t else (k, v) :: mapSet t key val

/-- Removal from an insertion-ordered string-keyed map (`Map.prototype.delete`). -/
def mapDelete {α : Type} : List (String × α) → String → List (String × α)
  | [], _ => []
  | (k, v) :: t, key => if k = key then t else (k, v) :: mapDelete t key

/-- Membership test (`Map.prototype.has`). -/
def mapHas {α : Type} (l : List (String × α)) (key : String) : Bool :=
  (mapGet l key).isSome

/-- Room record from `src/types/room.types.ts`. -/
structure Room where
  id : String
  players : List (String × Player)
  hostSocketId : String
  phase : Phase
  dayStage : Option DayStage := none
  timer : Option Bool := none
  dayStageTimer : Option Bool := none
  winner : Option Team := none
  votes : Option (List (String × String)) := none
deriving DecidableEq, Repr

/-! ## Win evaluator (`src/game/win.service.ts`) -/

/-- Body of `WinService.check`, factored over the player map:
filter the alive players, count the mafia-team ones among them, the rest are
town, then apply the `mafia === 0` / `mafia >= town` decision. -/
def WinService.checkPlayers (players : List (String × Player)) : Option Team :=
  let alive := (players.map Prod.snd).filter (fun p => p.alive)
  let mafia := (alive.filter (fun p => p.role.map Role.team == some Team.mafia)).length
  let town := alive.length - mafia
  if mafia = 0 then some Team.town
  else if town ≤ mafia then some Team.mafia
  else none

/-- `WinService.check(room)` from `src/game/win.service.ts`. -/
def WinService.check (room : Room) : Option Team :=
  WinService.checkPlayers room.players

/-- Specification-side count of alive mafia-faction players. -/
def aliveMafiaCount (players : List (String × Player)) : Nat :=
  (players.map Prod.snd).countP
    (fun p => p.alive && (p.role.map Role.team == some Team.mafia))

/-- Specification-side count of alive town players (alive and not mafia-team;
a player without a role counts as town, exactly as `p.role?.team === 'mafia'`
is false for an unassigned role). -/
def aliveTownCount (players : List (String × Player)) : Nat :=
  (players.map Prod.snd).countP
    (fun p => p.alive && !(p.role.map Role.team == some Team.mafia))

/-- The alive flag and faction of one player, the only data the win evaluator
may depend on. -/
def playerKind (p : Player) : Bool × Option Team :=
  (p.alive, p.role.map Role.team)

lemma checkPlayers_counts (players : List (String × Player)) :
    WinService.checkPlayers players =
      (if aliveMafiaCount players = 0 then some Team.town
       else if aliveTownCount players ≤ aliveMafiaCount players then some Team.mafia
       else none) := by
  unfold WinService.checkPlayers aliveMafiaCount aliveTownCount
  simp only [List.filter_filter, ← List.countP_eq_length_filter]
  have hsplit :
      (players.map Prod.snd).countP (fun p => p.alive) =
        (players.map Prod.snd).countP
            (fun p => p.alive && (p.role.map Role.team == some Team.mafia)) +
          (players.map Prod.snd).countP
            (fun p => p.alive && !(p.role.map Role.team == some Team.mafia)) := by
    induction players.map Prod.snd with
    | nil => rfl
    | cons p t ih =>
        by_cases hp : p.alive <;>
          by_cases hm : p.role.map Role.team == some Team.mafia <;>
            simp [List.countP_cons, hp, hm, ih] <;> omega
  have hcomm :
      (players.map Prod.snd).countP
          (fun p => (p.role.map Role.team == some Team.mafia) && p.alive) =
        (players.map Prod.snd).countP
          (fun p => p.alive && (p.role.map Role.team == some Team.mafia)) := by
    apply List.countP_congr
    intro p _
    by_cases hp : p.alive <;> by_cases hm : p.role.map Role.team == some Team.mafia <;>
      simp [hp, hm]
  rw [hcomm, hsplit, Nat.add_sub_cancel_left]

lemma checkPlayers_kind_counts (players : List (String × Player)) :
    WinService.checkPlayers players =
      (if (players.map (fun e => playerKind e.2)).countP
            (fun q => q.1 && (q.2 == some Team.mafia)) = 0 then some Team.town
       else if (players.map (fun e => playerKind e.2)).countP
            (fun q => q.1 && !(q.2 == some Team.mafia)) ≤
          (players.map (fun e => playerKind e.2)).countP
            (fun q => q.1 && (q.2 == some Team.mafia)) then some Team.mafia
       else none) := by
  rw [checkPlayers_counts]
  unfold aliveMafiaCount aliveTownCount
  simp only [List.countP_map]
  rfl

/-- C3.  The win evaluator returns town exactly when no mafia-faction player is
alive, otherwise mafia when the alive mafia count is at least the alive town
count, otherwise no winner; and its value depends only on the multiset of
(alive, faction) pairs of the players, not on any other room state. -/
theorem winService_check_spec :
    (∀ room : Room,
      WinService.check room =
        (if aliveMafiaCount room.players = 0 then some Team.town
         else if aliveTownCount room.players ≤ aliveMafiaCount room.players then
           some Team.mafia
         else none)) ∧
    (∀ ps₁ ps₂ : List (String × Player),
      (ps₁.map (fun e => playerKind e.2)).Perm (ps₂.map (fun e => playerKind e.2)) →
        WinService.checkPlayers ps₁ = WinService.checkPlayers ps₂) := by
  constructor
  · intro room
    exact checkPlayers_counts room.players
  · intro ps₁ ps₂ hperm
    rw [checkPlayers_kind_counts, checkPlayers_kind_counts,
      hperm.countP_eq, hperm.countP_eq]

/-- Witness for C3 at concrete inputs: a two-player room evaluates as stated,
and two player maps that agree up to permutation of their (alive, faction)
projections — but differ in keys, usernames and order — evaluate equally. -/
theorem winService_check_spec_witness :
    (WinService.check
        { id := "R", players := [("a", ⟨"a", "alice", some ROLES.mafia, true⟩),
            ("b", ⟨"b", "bob", some ROLES.citizen, true⟩)],
          hostSocketId := "a", phase := Phase.night } = some Team.mafia) ∧
    WinService.checkPlayers
        [("a", ⟨"a", "alice", some ROLES.mafia, true⟩),
         ("b", ⟨"b", "bob", some ROLES.citizen, true⟩)] =
      WinService.checkPlayers
        [("x", ⟨"x", "xu", some ROLES.detective, true⟩),
         ("y", ⟨"y", "yi", some ROLES.mafia, true⟩)] := by
  constructor
  · rw [winService_check_spec.1
      { id := "R", players := [("a", ⟨"a", "alice", some ROLES.mafia, true⟩),
          ("b", ⟨"b", "bob", some ROLES.citizen, true⟩)],
        hostSocketId := "a", phase := Phase.night }]
    decide
  · exact winService_check_spec.2 _ _ (by decide)

/-- C10.  When no player is alive (in particular for an empty player map) the
win evaluator returns town — never mafia — because the zero-alive-mafia branch
is tested first. -/
theorem winService_all_dead_town (room : Room)
    (h : ∀ e ∈ room.players, e.2.alive = false) :
    WinService.check room = some Team.town ∧ WinService.check room ≠ some Team.mafia := by
  have hzero : aliveMafiaCount room.players = 0 := by
    unfold aliveMafiaCount
    rw [List.countP_eq_zero]
    intro p hp
    rcases List.mem_map.1 hp with ⟨e, he, rfl⟩
    simp [h e he]
  have := (winService_check_spec.1 room)
  rw [this, if_pos hzero]
  exact ⟨rfl, by simp⟩

/-- Witness for C10: a room whose two players are both dead, and separately an
empty room, both evaluate to a town win. -/
theorem winService_all_dead_town_witness :
    WinService.check
        { id := "R", players := [("a", ⟨"a", "alice", some ROLES.mafia, false⟩),
            ("b", ⟨"b", "bob", some ROLES.citizen, false⟩)],
          hostSocketId := "a", phase := Phase.day } = some Team.town ∧
    WinService.check
        { id := "E", players := [], hostSocketId := "", phase := Phase.lobby } =
      some Team.town :=
  ⟨(winService_all_dead_town _ (by decide)).1,
   (winService_all_dead_town _ (by decide)).1⟩

/-! ## Vote ledger (`src/game/voting.service.ts`, most recent revision:
the one returning distinct "no votes"/"tie" messages and applying the
elimination itself, matching how `LobbyGateway.resolveDay` consumes the
returned string) -/

/-- `VotingService.vote`:  `room.votes ??= new Map(); room.votes.set(voterId, targetId)`. -/
def VotingService.vote (room : Room) (voterId targetId : String) : Room :=
  { room with votes := some (mapSet (room.votes.getD []) voterId targetId) }

/-- One step of the tally loop:  `counts.set(id, (counts.get(id) ?? 0) + 1)`. -/
def VotingService.bump (counts : List (String × Nat)) (id : String) :
    List (String × Nat) :=
  mapSet counts id ((mapGet counts id).getD 0 + 1)

/-- The tally loop `for (const id of room.votes.values()) { ... }`, iterating
over the ledger values in insertion order. -/
def VotingService.tally (targets : List String) : List (String × Nat) :=
  targets.foldl VotingService.bump []

/-- Ordering used by `[...counts.entries()].sort((a, b) => b[1] - a[1])`:
`a` may stay before `b` exactly when `b`'s count is at most `a`'s. -/
def voteOrder (a b : String × Nat) : Prop := b.2 ≤ a.2

instance : DecidableRel voteOrder := fun a b => inferInstanceAs (Decidable (b.2 ≤ a.2))

instance : IsTotal (String × Nat) voteOrder := ⟨fun a b => Nat.le_total b.2 a.2⟩

instance : IsTrans (String × Nat) voteOrder :=
  ⟨fun _ _ _ h₁ h₂ => Nat.le_trans h₂ h₁⟩

def VotingService.noVotesMsg : String := "No votes cast. Nobody was eliminated."

def VotingService.tieMsg : String := "Vote tied. Nobody was eliminated."

/-- The template literal `` `${victim.username} was eliminated` ``. -/
def eliminationMsg (username : String) : String := username ++ " was eliminated"

/-- Tail of `resolve` past the tie check:  look up `sorted[0][0]` in the player
map, return `null` when absent, otherwise set `victim.alive = false` in place
and return the elimination message. -/
def VotingService.resolveTop (room : Room) (top : String × Nat) :
    Option String × Room :=
  match mapGet room.players top.1 with
  | none => (none, room)
  | some victim =>
      (some (eliminationMsg victim.username),
       { room with players := mapSet room.players top.1 { victim with alive := false } })

/-- `VotingService.resolve` (most recent revision).  JavaScript
`Array.prototype.sort` is stable, so with comparator `(a, b) => b[1] - a[1]`
it computes the stable descending order by count, which is exactly
`List.insertionSort voteOrder`.  The guard
`sorted.length > 1 && sorted[0][1] === sorted[1][1]` becomes the match on the
first two sorted entries.  Returns the `string | null` result together with
the updated room (the in-place `victim.alive = false` mutation).  The `[]`
branch is unreachable — the tally of a nonempty ledger is nonempty. -/
def VotingService.resolve (room : Room) : Option String × Room :=
  match room.votes with
  | none => (some VotingService.noVotesMsg, room)
  | some vs =>
    if vs.length = 0 then (some VotingService.noVotesMsg, room)
    else
      match List.insertionSort voteOrder (VotingService.tally (vs.map Prod.snd)) with
      | [] => (none, room)
      | [top] => VotingService.resolveTop room top
      | top :: next :: _ =>
          if top.2 = next.2 then (some VotingService.tieMsg, room)
          else VotingService.resolveTop room top

/-- C5 (amended).  `resolve()` leaves the room unchanged apart from, in the
elimination case, setting the eliminated target's alive flag to false; in
particular the ledger itself, the phase, the timers and every other player
field are untouched, and clearing the ledger remains the caller's
responsibility. -/
theorem resolve_frame (room : Room) :
    ((VotingService.resolve room).2 = room ∨
      ∃ t p, mapGet room.players t = some p ∧
        (VotingService.resolve room).2 =
          { room with players := mapSet room.players t { p with alive := false } }) ∧
    (VotingService.resolve room).2.votes = room.votes := by
  have htop : ∀ top : String × Nat,
      ((VotingService.resolveTop room top).2 = room ∨
        ∃ t p, mapGet room.players t = some p ∧
          (VotingService.resolveTop room top).2 =
            { room with players := mapSet room.players t { p with alive := false } }) ∧
      (VotingService.resolveTop room top).2.votes = room.votes := by
    intro top
    unfold VotingService.resolveTop
    split
    next => exact ⟨Or.inl rfl, rfl⟩
    next victim hp => exact ⟨Or.inr ⟨top.1, victim, hp, rfl⟩, rfl⟩
  unfold VotingService.resolve
  split
  next => exact ⟨Or.inl rfl, rfl⟩
  next vs =>
    split
    next => exact ⟨Or.inl rfl, rfl⟩
    next =>
      split
      next => exact ⟨Or.inl rfl, rfl⟩
      next =>
        rename_i top heq
        exact htop top
      next =>
        rename_i top nxt tail heq
        split
        next => exact ⟨Or.inl rfl, rfl⟩
        next => exact htop top

/-- Counterexample to C5 as stated:  on a two-player room in `day`/`voting`
with the single vote `b → a`, `resolve()` itself flips player `a`'s alive flag
from true to false — resolution is not a pure read. -/
theorem resolve_mutates_alive_counterexample :
    mapGet
        (VotingService.resolve
            { id := "R",
              players := [("a", ⟨"a", "alice", some ROLES.citizen, true⟩),
                ("b", ⟨"b", "bob", some ROLES.mafia, true⟩)],
              hostSocketId := "a", phase := Phase.day,
              dayStage := some DayStage.voting,
              votes := some [("b", "a")] }).2.players "a" =
      some ⟨"a", "alice", some ROLES.citizen, false⟩ ∧
    mapGet
        ({ id := "R",
           players := [("a", ⟨"a", "alice", some ROLES.citizen, true⟩),
             ("b", ⟨"b", "bob", some ROLES.mafia, true⟩)],
           hostSocketId := "a", phase := Phase.day,
           dayStage := some DayStage.voting,
           votes := some [("b", "a")] } : Room).players "a" =
      some ⟨"a", "alice", some ROLES.citizen, true⟩ := by
  constructor <;> rfl

/-! ## Correctness of the tally / stable-sort pipeline, for the resolve claims -/

lemma mapSet_cons {α : Type} (k : String) (v : α) (t : List (String × α))
    (key : String) (val : α) :
    mapSet ((k, v) :: t) key val =
      if k = key then (key, val) :: t else (k, v) :: mapSet t key val := rfl

lemma mem_keys_mapSet {α : Type} {l : List (String × α)} {k key : String} {v : α}
    (h : k ∈ (mapSet l key v).map Prod.fst) : k ∈ l.map Prod.fst ∨ k = key := by
  induction l with
  | nil =>
      simp only [mapSet, List.map_cons, List.map_nil, List.mem_singleton] at h
      exact Or.inr h
  | cons e t ih =>
      obtain ⟨a, b⟩ := e
      rw [mapSet_cons] at h
      by_cases he : a = key
      · rw [if_pos he] at h
        simp only [List.map_cons, List.mem_cons] at h
        rcases h with h | h
        · exact Or.inr h
        · exact Or.inl (List.mem_cons_of_mem _ h)
      · rw [if_neg he] at h
        simp only [List.map_cons, List.mem_cons] at h
        rcases h with h | h
        · exact Or.inl (by simp [h])
        · rcases ih h with h' | h'
          · exact Or.inl (List.mem_cons_of_mem _ h')
          · exact Or.inr h'

lemma keys_nodup_mapSet {α : Type} {l : List (String × α)} {key : String} {v : α}
    (h : (l.map Prod.fst).Nodup) : ((mapSet l key v).map Prod.fst).Nodup := by
  induction l with
  | nil => simp [mapSet]
  | cons e t ih =>
      obtain ⟨a, b⟩ := e
      simp only [List.map_cons, List.nodup_cons] at h
      rw [mapSet_cons]
      by_cases he : a = key
      · rw [if_pos he]
        simp only [List.map_cons, List.nodup_cons]
        exact ⟨by rw [← he]; exact h.1, h.2⟩
      · rw [if_neg he]
        simp only [List.map_cons, List.nodup_cons]
        refine ⟨fun hmem => ?_, ih h.2⟩
        rcases mem_keys_mapSet hmem with h' | h'
        · exact h.1 h'
        · exact he h'

lemma tally_keys_nodup_aux (ts : List String) (acc : List (String × Nat))
    (h : (acc.map Prod.fst).Nodup) :
    ((ts.foldl VotingService.bump acc).map Prod.fst).Nodup := by
  induction ts generalizing acc with
  | nil => exact h
  | cons t ts ih =>
      exact ih _ (keys_nodup_mapSet h)

/-- The tally never repeats a target key. -/
lemma tally_keys_nodup (ts : List String) :
    ((VotingService.tally ts).map Prod.fst).Nodup :=
  tally_keys_nodup_aux ts [] (by simp)

lemma keys_nodup_val_eq {α : Type} {l : List (String × α)} {k : String} {v₁ v₂ : α}
    (hnd : (l.map Prod.fst).Nodup) (h₁ : (k, v₁) ∈ l) (h₂ : (k, v₂) ∈ l) : v₁ = v₂ := by
  induction l with
  | nil => cases h₁
  | cons e t ih =>
      simp only [List.map_cons, List.nodup_cons] at hnd
      rcases List.mem_cons.1 h₁ with h₁ | h₁ <;> rcases List.mem_cons.1 h₂ with h₂ | h₂
      · exact congrArg Prod.snd (h₁.trans h₂.symm)
      · exact absurd (by rw [← congrArg Prod.fst h₁]; exact List.mem_map.2 ⟨(k, v₂), h₂, rfl⟩) hnd.1
      · exact absurd (by rw [← congrArg Prod.fst h₂]; exact List.mem_map.2 ⟨(k, v₁), h₁, rfl⟩) hnd.1
      · exact ih hnd.2 h₁ h₂

lemma sorted_cons_le {x : String × Nat} {l : List (String × Nat)}
    (h : List.Sorted voteOrder (x :: l)) : ∀ e ∈ l, e.2 ≤ x.2 :=
  fun e he => List.rel_of_sorted_cons h e he

/-- When two distinct targets both attain the maximal tally, the stable sort
puts two equal counts in front: the tie branch of `resolve` is taken. -/
lemma sort_two_max_tie {c : List (String × Nat)} {t₁ t₂ : String} {n : Nat}
    (hne : t₁ ≠ t₂) (h₁ : (t₁, n) ∈ c) (h₂ : (t₂, n) ∈ c)
    (hmax : ∀ e ∈ c, e.2 ≤ n) :
    ∃ top nxt tail, List.insertionSort voteOrder c = top :: nxt :: tail ∧
      top.2 = nxt.2 := by
  have hperm := List.perm_insertionSort voteOrder c
  have hsorted := List.sorted_insertionSort voteOrder c
  have h₁s : (t₁, n) ∈ List.insertionSort voteOrder c := hperm.mem_iff.2 h₁
  have h₂s : (t₂, n) ∈ List.insertionSort voteOrder c := hperm.mem_iff.2 h₂
  have hmaxs : ∀ e ∈ List.insertionSort voteOrder c, e.2 ≤ n :=
    fun e he => hmax e (hperm.mem_iff.1 he)
  cases hs : List.insertionSort voteOrder c with
  | nil => rw [hs] at h₁s; cases h₁s
  | cons top tail =>
    cases tail with
    | nil =>
        rw [hs] at h₁s h₂s
        simp only [List.mem_singleton] at h₁s h₂s
        exact absurd (congrArg Prod.fst (h₁s.trans h₂s.symm)) hne
    | cons nxt more =>
        refine ⟨top, nxt, more, rfl, ?_⟩
        rw [hs] at h₁s h₂s hmaxs hsorted
        have htopmax : top.2 = n := by
          have hle : top.2 ≤ n := hmaxs top (by simp)
          rcases List.mem_cons.1 h₁s with h | h
          · have := congrArg Prod.snd h; simp at this; omega
          · have := sorted_cons_le hsorted (t₁, n) h
            simp at this; omega
        have hnxtle : nxt.2 ≤ n := hmaxs nxt (by simp)
        have h3 : (t₁, n) ∈ nxt :: more ∨ (t₂, n) ∈ nxt :: more := by
          rcases List.mem_cons.1 h₁s with h | h
          · rcases List.mem_cons.1 h₂s with h' | h'
            · exact absurd (congrArg Prod.fst (h.trans h'.symm)) hne
            · exact Or.inr h'
          · exact Or.inl h
        have hnxtge : n ≤ nxt.2 := by
          rcases h3 with h | h <;> rcases List.mem_cons.1 h with heq | hm
          · have := congrArg Prod.snd heq; simp at this; omega
          · have := sorted_cons_le hsorted.of_cons (t₁, n) hm
            simp at this; omega
          · have := congrArg Prod.snd heq; simp at this; omega
          · have := sorted_cons_le hsorted.of_cons (t₂, n) hm
            simp at this; omega
        omega

/-- When a single target strictly dominates every other tally and the tally
keys are distinct, the stable sort puts exactly that entry in front and the
tie branch of `resolve` is not taken. -/
lemma sort_unique_top {c : List (String × Nat)} {t : String} {n : Nat}
    (hnd : (c.map Prod.fst).Nodup) (hmem : (t, n) ∈ c)
    (hstrict : ∀ e ∈ c, e.1 ≠ t → e.2 < n) :
    ∃ tail, List.insertionSort voteOrder c = (t, n) :: tail ∧
      ∀ nxt ∈ tail, nxt.2 < n := by
  have hperm := List.perm_insertionSort voteOrder c
  have hsorted := List.sorted_insertionSort voteOrder c
  have hmems : (t, n) ∈ List.insertionSort voteOrder c := hperm.mem_iff.2 hmem
  have hnds : ((List.insertionSort voteOrder c).map Prod.fst).Nodup :=
    ((hperm.map Prod.fst).nodup_iff).2 hnd
  cases hs : List.insertionSort voteOrder c with
  | nil => rw [hs] at hmems; cases hmems
  | cons top tail =>
    rw [hs] at hmems hnds hsorted
    have htopc : top ∈ c := hperm.mem_iff.1 (by rw [hs]; simp)
    have htop : top = (t, n) := by
      cases top with
      | mk a b =>
        by_cases hkey : a = t
        · subst hkey
          have hbn : b = n := keys_nodup_val_eq hnd htopc hmem
          rw [hbn]
        · have hlt : b < n := hstrict (a, b) htopc hkey
          rcases List.mem_cons.1 hmems with h | h
          · exact absurd (congrArg Prod.fst h).symm hkey
          · have hub : n ≤ b := sorted_cons_le hsorted (t, n) h
            omega
    refine ⟨tail, by rw [htop], ?_⟩
    intro nxt hnxt
    have hnxtc : nxt ∈ c := hperm.mem_iff.1 (by rw [hs]; exact List.mem_cons_of_mem _ hnxt)
    have hkey : nxt.1 ≠ t := by
      intro hk
      rw [htop] at hnds
      simp only [List.map_cons, List.nodup_cons] at hnds
      exact hnds.1 (by rw [← hk]; exact List.mem_map.2 ⟨nxt, hnxt, rfl⟩)
    exact hstrict nxt hnxtc hkey

lemma resolveTop_none {room : Room} {top : String × Nat}
    (hp : mapGet room.players top.1 = none) :
    VotingService.resolveTop room top = (none, room) := by
  unfold VotingService.resolveTop
  rw [hp]

lemma resolveTop_some {room : Room} {top : String × Nat} {p : Player}
    (hp : mapGet room.players top.1 = some p) :
    VotingService.resolveTop room top =
      (some (eliminationMsg p.username),
       { room with players := mapSet room.players top.1 { p with alive := false } }) := by
  unfold VotingService.resolveTop
  rw [hp]

/-- C4 (amended).  `resolve()` returns the distinct no-votes message when the
ledger is absent or empty; the distinct tie message when two distinct targets
both attain the maximal tally ("the two highest tallies are exactly equal");
and otherwise — a unique target with the strictly highest tally — it
eliminates that target and returns a message naming it, except that when that
target is no longer in the room's player map it returns the null
no-elimination signal.  Tallies below the top do not affect the result, and
the no-votes message differs from the tie message. -/
theorem resolve_characterization (room : Room) :
    ((room.votes = none ∨ room.votes = some []) →
        VotingService.resolve room = (some VotingService.noVotesMsg, room)) ∧
    (∀ vs t₁ t₂ n, room.votes = some vs → t₁ ≠ t₂ →
        (t₁, n) ∈ VotingService.tally (vs.map Prod.snd) →
        (t₂, n) ∈ VotingService.tally (vs.map Prod.snd) →
        (∀ e ∈ VotingService.tally (vs.map Prod.snd), e.2 ≤ n) →
        VotingService.resolve room = (some VotingService.tieMsg, room)) ∧
    (∀ vs t n, room.votes = some vs →
        (t, n) ∈ VotingService.tally (vs.map Prod.snd) →
        (∀ e ∈ VotingService.tally (vs.map Prod.snd), e.1 ≠ t → e.2 < n) →
        (mapGet room.players t = none →
            VotingService.resolve room = (none, room)) ∧
        (∀ p, mapGet room.players t = some p →
            VotingService.resolve room =
              (some (eliminationMsg p.username),
               { room with
                  players := mapSet room.players t { p with alive := false } }))) ∧
    VotingService.noVotesMsg ≠ VotingService.tieMsg := by
  refine ⟨?_, ?_, ?_, ?_⟩
  · rintro (hv | hv)
    · unfold VotingService.resolve
      rw [hv]
    · unfold VotingService.resolve
      rw [hv]
      rfl
  · intro vs t₁ t₂ n hv hne h₁ h₂ hmax
    obtain ⟨top, nxt, tail, hs, htie⟩ := sort_two_max_tie hne h₁ h₂ hmax
    have hlen : ¬ vs.length = 0 := by
      intro h0
      rw [List.length_eq_zero] at h0
      subst h0
      simp [VotingService.tally] at h₁
    unfold VotingService.resolve
    rw [hv]
    dsimp only
    rw [if_neg hlen, hs]
    dsimp only
    rw [if_pos htie]
  · intro vs t n hv hmem hstrict
    obtain ⟨tail, hs, htail⟩ :=
      sort_unique_top (tally_keys_nodup (vs.map Prod.snd)) hmem hstrict
    have hlen : ¬ vs.length = 0 := by
      intro h0
      rw [List.length_eq_zero] at h0
      subst h0
      simp [VotingService.tally] at hmem
    have hres : VotingService.resolve room = VotingService.resolveTop room (t, n) := by
      unfold VotingService.resolve
      rw [hv]
      dsimp only
      rw [if_neg hlen, hs]
      cases tail with
      | nil => rfl
      | cons nxt more =>
          dsimp only
          rw [if_neg ?_]
          intro heq
          exact absurd heq.symm (Nat.ne_of_lt (htail nxt (List.mem_cons_self _ _)))
    refine ⟨fun hp => ?_, fun p hp => ?_⟩
    · rw [hres, resolveTop_none hp]
    · rw [hres, resolveTop_some hp]
  · intro h
    exact absurd (congrArg (fun s => s.length) h) (by decide)

/-- Counterexample to C4 as stated:  a nonempty ledger whose unique top target
has left the player map yields the null no-elimination signal, although the
ledger is neither empty nor top-tied — so "no-elimination exactly when empty
or tied, otherwise the top target's identity" fails on this input. -/
theorem resolve_missing_target_counterexample :
    VotingService.resolve
        { id := "R", players := [("p", ⟨"p", "pat", some ROLES.citizen, true⟩)],
          hostSocketId := "p", phase := Phase.day, dayStage := some DayStage.voting,
          votes := some [("v", "x")] } =
      (none,
       { id := "R", players := [("p", ⟨"p", "pat", some ROLES.citizen, true⟩)],
         hostSocketId := "p", phase := Phase.day, dayStage := some DayStage.voting,
         votes := some [("v", "x")] }) ∧
    ({ id := "R", players := [("p", ⟨"p", "pat", some ROLES.citizen, true⟩)],
       hostSocketId := "p", phase := Phase.day, dayStage := some DayStage.voting,
       votes := some [("v", "x")] } : Room).votes = some [("v", "x")] ∧
    mapGet
        ({ id := "R", players := [("p", ⟨"p", "pat", some ROLES.citizen, true⟩)],
           hostSocketId := "p", phase := Phase.day, dayStage := some DayStage.voting,
           votes := some [("v", "x")] } : Room).players "x" = none := by
  refine ⟨?_, rfl, rfl⟩
  rfl

/-- Witness for C4 at concrete inputs:  an absent ledger gives the no-votes
message; a `{v1→a, v2→b}` ledger gives the tie message; a `{v→x}` ledger whose
target `x` is not a member gives the null signal; a `{b→a, c→a, d→b}` ledger
eliminates `a` and reports it. -/
theorem resolve_characterization_witness :
    VotingService.resolve
        { id := "E", players := [], hostSocketId := "", phase := Phase.day } =
      (some VotingService.noVotesMsg,
       { id := "E", players := [], hostSocketId := "", phase := Phase.day }) ∧
    VotingService.resolve
        { id := "T", players := [], hostSocketId := "", phase := Phase.day,
          votes := some [("v1", "a"), ("v2", "b")] } =
      (some VotingService.tieMsg,
       { id := "T", players := [], hostSocketId := "", phase := Phase.day,
         votes := some [("v1", "a"), ("v2", "b")] }) ∧
    VotingService.resolve
        { id := "G", players := [("p", ⟨"p", "pat", some ROLES.citizen, true⟩)],
          hostSocketId := "p", phase := Phase.day, votes := some [("v", "x")] } =
      (none,
       { id := "G", players := [("p", ⟨"p", "pat", some ROLES.citizen, true⟩)],
         hostSocketId := "p", phase := Phase.day, votes := some [("v", "x")] }) ∧
    VotingService.resolve
        { id := "D", players := [("a", ⟨"a", "alice", some ROLES.citizen, true⟩),
            ("b", ⟨"b", "bob", some ROLES.mafia, true⟩)],
          hostSocketId := "a", phase := Phase.day,
          votes := some [("b", "a"), ("c", "a"), ("d", "b")] } =
      (some (eliminationMsg "alice"),
       { id := "D",
         players := mapSet
           [("a", ⟨"a", "alice", some ROLES.citizen, true⟩),
            ("b", ⟨"b", "bob", some ROLES.mafia, true⟩)] "a"
           ⟨"a", "alice", some ROLES.citizen, false⟩,
         hostSocketId := "a", phase := Phase.day,
         votes := some [("b", "a"), ("c", "a"), ("d", "b")] }) := by
  refine ⟨?_, ?_, ?_, ?_⟩
  · exact (resolve_characterization _).1 (Or.inl rfl)
  · exact (resolve_characterization _).2.1 [("v1", "a"), ("v2", "b")] "a" "b" 1 rfl
      (by decide) (by decide) (by decide) (by decide)
  · exact ((resolve_characterization _).2.2.1 [("v", "x")] "x" 1 rfl
      (by decide) (by decide)).1 rfl
  · exact ((resolve_characterization _).2.2.1 [("b", "a"), ("c", "a"), ("d", "b")]
      "a" 2 rfl (by decide) (by decide)).2 ⟨"a", "alice", some ROLES.citizen, true⟩ rfl

/-! ## Role draw

Two implementations exist:  `RolesService.assign` (`src/game/roles.service.ts`)
grants detective only at 4 or more players and doctor only at 5 or more, while
the private `LobbyGateway.assignRoles` of `src/gateway/lobby.gateway.ts` — the
one `handleStartGame` actually calls — assigns detective at index `mafiaCount`
and doctor at `mafiaCount + 1` unconditionally.  Both first shuffle the player
list; the shuffle is modelled by taking the already-shuffled order as the
argument, which is harmless for the counting properties below. -/

/-- Role given to position `i` of the shuffled list of `n` players by
`RolesService.assign`:  the first `max(1, floor(n/4))` are mafia, then one
detective if `n ≥ 4`, then one doctor if `n ≥ 5`, the rest citizens. -/
def RolesService.roleAt (n i : Nat) : Role :=
  let mafiaCount := max 1 (n / 4)
  if i < mafiaCount then ROLES.mafia
  else if 4 ≤ n ∧ i = mafiaCount then ROLES.detective
  else if 5 ≤ n ∧ i = mafiaCount + 1 then ROLES.doctor
  else ROLES.citizen

/-- The assignment loops of `RolesService.assign` applied to the shuffled
list:  every player is set alive and receives the role of their position. -/
def RolesService.assignShuffled (shuffled : List Player) : List Player :=
  shuffled.mapIdx (fun i p =>
    { p with alive := true, role := some (RolesService.roleAt shuffled.length i) })

/-- `RolesService.assign` with its idempotence guard
`if ([...room.players.values()].some(p => p.role)) return`. -/
def RolesService.assign (players : List Player) : List Player :=
  if players.any (fun p => p.role.isSome) then players
  else RolesService.assignShuffled players

/-- Role given to position `i` by the gateway's inline `assignRoles`
(`src/gateway/lobby.gateway.ts` lines 276–282):  mafia below `mafiaCount`,
detective at `mafiaCount`, doctor at `mafiaCount + 1`, citizens beyond —
with no population thresholds. -/
def LobbyGateway.roleAt (n i : Nat) : Role :=
  let mafiaCount := max 1 (n / 4)
  if i < mafiaCount then ROLES.mafia
  else if i = mafiaCount then ROLES.detective
  else if i = mafiaCount + 1 then ROLES.doctor
  else ROLES.citizen

/-- The `players.forEach((p, i) => ...)` of the gateway's `assignRoles`. -/
def LobbyGateway.assignShuffled (shuffled : List Player) : List Player :=
  shuffled.mapIdx (fun i p =>
    { p with alive := true, role := some (LobbyGateway.roleAt shuffled.length i) })

/-- The gateway's private `assignRoles` with its
`if (players.some(p => p.role)) return` guard. -/
def LobbyGateway.assignRoles (players : List Player) : List Player :=
  if players.any (fun p => p.role.isSome) then players
  else LobbyGateway.assignShuffled players

/-- C2 (failing input, gateway draw).  On three role-less players the role
draw executed by `handleStartGame` hands out one mafia, one detective and one
doctor — although the claim (and `RolesService.assign`, which the gateway does
not call) grants a detective only from 4 players and a doctor only from 5. -/
theorem gateway_assignRoles_three_players_detective_doctor :
    (LobbyGateway.assignRoles
        [⟨"a", "alice", none, true⟩, ⟨"b", "bob", none, true⟩,
         ⟨"c", "carol", none, true⟩]).countP
      (fun p => p.role == some ROLES.detective) = 1 ∧
    (LobbyGateway.assignRoles
        [⟨"a", "alice", none, true⟩, ⟨"b", "bob", none, true⟩,
         ⟨"c", "carol", none, true⟩]).countP
      (fun p => p.role == some ROLES.doctor) = 1 ∧
    (LobbyGateway.assignRoles
        [⟨"a", "alice", none, true⟩, ⟨"b", "bob", none, true⟩,
         ⟨"c", "carol", none, true⟩]).countP
      (fun p => p.role == some ROLES.mafia) = 1 := by
  refine ⟨?_, ?_, ?_⟩ <;> rfl

lemma countP_mapIdx_index {α β : Type} (q : β → Bool) :
    ∀ (l : List α) (f : Nat → α → β) (g : Nat → Bool), (∀ i a, q (f i a) = g i) →
      (l.mapIdx f).countP q = (List.range l.length).countP g
  | [], _, _, _ => rfl
  | a :: l, f, g, h => by
      rw [List.mapIdx_cons, List.countP_cons,
        countP_mapIdx_index q l (fun i => f (i + 1)) (fun i => g (i + 1))
          (fun i b => h (i + 1) b),
        List.length_cons, List.range_succ_eq_map, List.countP_cons, List.countP_map,
        h 0 a]
      rfl

lemma countP_range_lt (k n : Nat) :
    (List.range n).countP (fun i => decide (i < k)) = min k n := by
  induction n with
  | zero => simp
  | succ n ih =>
      rw [List.range_succ, List.countP_append, ih, List.countP_singleton]
      simp only [decide_eq_true_eq]
      split_ifs <;> omega

lemma countP_range_eq_idx (j n : Nat) :
    (List.range n).countP (fun i => decide (i = j)) = if j < n then 1 else 0 := by
  induction n with
  | zero => simp
  | succ n ih =>
      rw [List.range_succ, List.countP_append, ih, List.countP_singleton]
      simp only [decide_eq_true_eq]
      split_ifs <;> omega

lemma countP_range_ge (k n : Nat) :
    (List.range n).countP (fun i => decide (k ≤ i)) = n - min k n := by
  induction n with
  | zero => simp
  | succ n ih =>
      rw [List.range_succ, List.countP_append, ih, List.countP_singleton]
      simp only [decide_eq_true_eq]
      split_ifs <;> omega

lemma rolesService_roleAt_mafia (n : Nat) :
    ∀ i ∈ List.range n,
      (RolesService.roleAt n i == ROLES.mafia) = decide (i < max 1 (n / 4)) := by
  intro i _
  unfold RolesService.roleAt
  by_cases h1 : i < max 1 (n / 4)
  · rw [if_pos h1, decide_eq_true h1]
    rfl
  · rw [if_neg h1, decide_eq_false h1]
    split_ifs <;> rfl

lemma rolesService_roleAt_detective (n : Nat) :
    ∀ i ∈ List.range n,
      (RolesService.roleAt n i == ROLES.detective) =
        decide (4 ≤ n ∧ i = max 1 (n / 4)) := by
  intro i _
  unfold RolesService.roleAt
  by_cases h2 : 4 ≤ n ∧ i = max 1 (n / 4)
  · have h1 : ¬ i < max 1 (n / 4) := by omega
    rw [if_neg h1, if_pos h2, decide_eq_true h2]
    rfl
  · rw [decide_eq_false h2]
    by_cases h1 : i < max 1 (n / 4)
    · rw [if_pos h1]
      rfl
    · rw [if_neg h1, if_neg h2]
      split_ifs <;> rfl

lemma rolesService_roleAt_doctor (n : Nat) :
    ∀ i ∈ List.range n,
      (RolesService.roleAt n i == ROLES.doctor) =
        decide (5 ≤ n ∧ i = max 1 (n / 4) + 1) := by
  intro i _
  unfold RolesService.roleAt
  by_cases h3 : 5 ≤ n ∧ i = max 1 (n / 4) + 1
  · have h1 : ¬ i < max 1 (n / 4) := by omega
    have h2 : ¬ (4 ≤ n ∧ i = max 1 (n / 4)) := by omega
    rw [if_neg h1, if_neg h2, if_pos h3, decide_eq_true h3]
    rfl
  · rw [decide_eq_false h3]
    by_cases h1 : i < max 1 (n / 4)
    · rw [if_pos h1]
      rfl
    · by_cases h2 : 4 ≤ n ∧ i = max 1 (n / 4)
      · rw [if_neg h1, if_pos h2]
        rfl
      · rw [if_neg h1, if_neg h2, if_neg h3]
        rfl

lemma rolesService_roleAt_citizen (n : Nat) :
    ∀ i ∈ List.range n,
      (RolesService.roleAt n i == ROLES.citizen) =
        decide (max 1 (n / 4) + (if 4 ≤ n then 1 else 0) +
          (if 5 ≤ n then 1 else 0) ≤ i) := by
  intro i _
  unfold RolesService.roleAt
  by_cases h4 : 4 ≤ n <;> by_cases h5 : 5 ≤ n
  · rw [if_pos h4, if_pos h5]
    by_cases hc : max 1 (n / 4) + 1 + 1 ≤ i
    · have h1 : ¬ i < max 1 (n / 4) := by omega
      have h2 : ¬ (4 ≤ n ∧ i = max 1 (n / 4)) := by omega
      have h3 : ¬ (5 ≤ n ∧ i = max 1 (n / 4) + 1) := by omega
      rw [if_neg h1, if_neg h2, if_neg h3, decide_eq_true hc]
      rfl
    · rw [decide_eq_false hc]
      by_cases h1 : i < max 1 (n / 4)
      · rw [if_pos h1]
        rfl
      · by_cases h2i : i = max 1 (n / 4)
        · rw [if_neg h1, if_pos ⟨h4, h2i⟩]
          rfl
        · have h3i : i = max 1 (n / 4) + 1 := by omega
          rw [if_neg h1, if_neg (by omega), if_pos ⟨h5, h3i⟩]
          rfl
  · rw [if_pos h4, if_neg h5]
    by_cases hc : max 1 (n / 4) + 1 + 0 ≤ i
    · have h1 : ¬ i < max 1 (n / 4) := by omega
      have h2 : ¬ (4 ≤ n ∧ i = max 1 (n / 4)) := by omega
      have h3 : ¬ (5 ≤ n ∧ i = max 1 (n / 4) + 1) := by tauto
      rw [if_neg h1, if_neg h2, if_neg h3, decide_eq_true hc]
      rfl
    · rw [decide_eq_false hc]
      by_cases h1 : i < max 1 (n / 4)
      · rw [if_pos h1]
        rfl
      · have h2i : i = max 1 (n / 4) := by omega
        rw [if_neg h1, if_pos ⟨h4, h2i⟩]
        rfl
  · exact absurd (by omega : (4 : Nat) ≤ n) h4
  · rw [if_neg h4, if_neg h5]
    by_cases hc : max 1 (n / 4) + 0 + 0 ≤ i
    · have h1 : ¬ i < max 1 (n / 4) := by omega
      have h2 : ¬ (4 ≤ n ∧ i = max 1 (n / 4)) := by tauto
      have h3 : ¬ (5 ≤ n ∧ i = max 1 (n / 4) + 1) := by tauto
      rw [if_neg h1, if_neg h2, if_neg h3, decide_eq_true hc]
      rfl
    · have h1 : i < max 1 (n / 4) := by omega
      rw [decide_eq_false hc, if_pos h1]
      rfl

lemma mapIdx_roles_all_alive_some (g : Nat → Role) :
    ∀ (ps : List Player),
      ∀ p ∈ ps.mapIdx (fun i q => { q with alive := true, role := some (g i) }),
        p.alive = true ∧ p.role.isSome = true
  | [], p, hp => by cases hp
  | a :: l, p, hp => by
      rw [List.mapIdx_cons] at hp
      rcases List.mem_cons.1 hp with h | h
      · rw [h]
        exact ⟨rfl, rfl⟩
      · exact mapIdx_roles_all_alive_some (fun i => g (i + 1)) l p h

lemma countP_congr_eq {α : Type} {l : List α} {p q : α → Bool}
    (h : ∀ a ∈ l, p a = q a) : l.countP p = l.countP q :=
  List.countP_congr (fun a ha => by rw [h a ha])

/-- The repository's own `RolesService.assign` satisfies the allocation table
of the claim:  exactly `max(1, floor(N/4))` mafia, one detective iff `N ≥ 4`,
one doctor iff `N ≥ 5`, the remainder citizens, everyone alive with exactly
one role.  (The inline gateway draw does not; see the C2 theorem.) -/
theorem rolesService_assign_spec (players : List Player)
    (hno : ∀ p ∈ players, p.role = none) (hn : 1 ≤ players.length) :
    (RolesService.assign players).countP
        (fun p => p.role == some ROLES.mafia) = max 1 (players.length / 4) ∧
    (RolesService.assign players).countP
        (fun p => p.role == some ROLES.detective) =
      (if 4 ≤ players.length then 1 else 0) ∧
    (RolesService.assign players).countP
        (fun p => p.role == some ROLES.doctor) =
      (if 5 ≤ players.length then 1 else 0) ∧
    (RolesService.assign players).countP
        (fun p => p.role == some ROLES.citizen) =
      players.length - (max 1 (players.length / 4) +
       (if 4 ≤ players.length then 1 else 0) + (if 5 ≤ players.length then 1 else 0)) ∧
    (RolesService.assign players).length = players.length ∧
    ∀ p ∈ RolesService.assign players, p.alive = true ∧ p.role.isSome = true := by
  have hguard : RolesService.assign players = RolesService.assignShuffled players := by
    unfold RolesService.assign
    rw [if_neg]
    rw [List.any_eq_true]
    rintro ⟨p, hp, hsome⟩
    rw [hno p hp] at hsome
    cases hsome
  rw [hguard]
  unfold RolesService.assignShuffled
  refine ⟨?_, ?_, ?_, ?_, by simp, ?_⟩
  · rw [countP_mapIdx_index _ players _
      (fun i => RolesService.roleAt players.length i == ROLES.mafia) (fun i a => rfl),
      countP_congr_eq (rolesService_roleAt_mafia players.length),
      countP_range_lt]
    omega
  · rw [countP_mapIdx_index _ players _
      (fun i => RolesService.roleAt players.length i == ROLES.detective) (fun i a => rfl),
      countP_congr_eq (rolesService_roleAt_detective players.length)]
    by_cases h4 : 4 ≤ players.length
    · rw [countP_congr_eq (fun i _ => by
        simp only [h4, true_and] : ∀ i ∈ List.range players.length,
          decide (4 ≤ players.length ∧ i = max 1 (players.length / 4)) =
            decide (i = max 1 (players.length / 4))),
        countP_range_eq_idx]
      rw [if_pos (by omega), if_pos h4]
    · rw [countP_congr_eq (fun i _ => by
        simp only [h4, false_and, decide_False] : ∀ i ∈ List.range players.length,
          decide (4 ≤ players.length ∧ i = max 1 (players.length / 4)) = false),
        if_neg h4]
      simp
  · rw [countP_mapIdx_index _ players _
      (fun i => RolesService.roleAt players.length i == ROLES.doctor) (fun i a => rfl),
      countP_congr_eq (rolesService_roleAt_doctor players.length)]
    by_cases h5 : 5 ≤ players.length
    · rw [countP_congr_eq (fun i _ => by
        simp only [h5, true_and] : ∀ i ∈ List.range players.length,
          decide (5 ≤ players.length ∧ i = max 1 (players.length / 4) + 1) =
            decide (i = max 1 (players.length / 4) + 1)),
        countP_range_eq_idx]
      rw [if_pos (by omega), if_pos h5]
    · rw [countP_congr_eq (fun i _ => by
        simp only [h5, false_and, decide_False] : ∀ i ∈ List.range players.length,
          decide (5 ≤ players.length ∧ i = max 1 (players.length / 4) + 1) = false),
        if_neg h5]
      simp
  · rw [countP_mapIdx_index _ players _
      (fun i => RolesService.roleAt players.length i == ROLES.citizen) (fun i a => rfl),
      countP_congr_eq (rolesService_roleAt_citizen players.length),
      countP_range_ge]
    have hth : max 1 (players.length / 4) + (if 4 ≤ players.length then 1 else 0) +
        (if 5 ≤ players.length then 1 else 0) ≤ players.length := by
      split_ifs <;> omega
    omega
  · exact mapIdx_roles_all_alive_some (RolesService.roleAt players.length) players

/-! ## Phase scheduler (`phase.service.ts`, most recent revision — the one
taking the `onStateChange` callback, wired by `LobbyGateway.handleStartGame`
with `checkWin = () => winService.check(room)` and
`onResolveDay = () => resolveDay(room)`).

`setTimeout` bodies become explicit step functions; arming a timer stores
`some true` (pending) in the handle field, a fired handle keeps `some false`
(stale object still stored), and `clearTimeout` + `= undefined` stores
`none`. -/

inductive NightDay where
  | night
  | day
deriving DecidableEq, Repr

def NightDay.toPhase : NightDay → Phase
  | NightDay.night => Phase.night
  | NightDay.day => Phase.day

/-- `const nextPhase = phase === 'night' ? 'day' : 'night'`. -/
def NightDay.next : NightDay → NightDay
  | NightDay.night => NightDay.day
  | NightDay.day => NightDay.night

/-- Synchronous body of `PhaseService.startPhase`:  stop and clear both
timers, set the phase, set up stage and votes (day starts in discussion with
the sub-timer armed; night clears both), then arm the phase timer. -/
def PhaseService.startPhase (room : Room) (phase : NightDay) : Room :=
  let r1 := { room with timer := none, dayStageTimer := none,
                        phase := phase.toPhase }
  let r2 :=
    if phase = NightDay.day then
      { r1 with dayStage := some DayStage.discussion, votes := none,
                dayStageTimer := some true }
    else
      { r1 with dayStage := none, votes := none }
  { r2 with timer := some true }

/-- Body of the day-stage sub-timer callback:  if the phase is no longer
`day`, do nothing; otherwise open voting with a fresh empty ledger. -/
def PhaseService.dayStageTimerFire (room : Room) : Room :=
  let r := { room with dayStageTimer := some false }
  if r.phase ≠ Phase.day then r
  else { r with dayStage := some DayStage.voting, votes := some [] }

/-- State effect of `LobbyGateway.resolveDay`:  run `votingService.resolve`
(the emits carry no further state change). -/
def LobbyGateway.resolveDayRoom (room : Room) : Room :=
  (VotingService.resolve room).2

/-- Body of the phase-duration timer callback of `startPhase` (the captured
`phase` is the argument):  on a day phase first resolve the votes, then check
the win condition; a winner ends the game in place (phase and winner are set,
nothing else — note that roles are not stripped and the sub-timer is not
cancelled here), otherwise recurse into the next phase. -/
def PhaseService.phaseTimerFire (room : Room) (phase : NightDay) : Room :=
  let r1 := { room with timer := some false }
  let r2 := if phase = NightDay.day then LobbyGateway.resolveDayRoom r1 else r1
  match WinService.check r2 with
  | some w => { r2 with phase := Phase.ended, winner := some w }
  | none => PhaseService.startPhase r2 phase.next

/-- `PhaseService.end`:  cancel and clear both timers, set `ended` and the
winner, strip every player's role. -/
def PhaseService.end (room : Room) (winner : Team) : Room :=
  { room with timer := none, dayStageTimer := none, phase := Phase.ended,
              winner := some winner,
              players := room.players.map (fun e => (e.1, { e.2 with role := none })) }

/-- C1 (failing input).  A day phase that ends through the scheduler's
phase-timer callback with a winner leaves the room in `phase = ended` with the
day-stage sub-timer still pending (`some true`: neither cancelled nor
cleared), the fired phase-timer handle still stored, and the players' roles
intact — the end-game cleanup only happens in `PhaseService.end`, which this
code path never calls. -/
theorem phaseTimer_end_keeps_roles_and_subtimer :
    (PhaseService.phaseTimerFire
        { id := "R",
          players := [("m", ⟨"m", "mallory", some ROLES.mafia, true⟩),
            ("c", ⟨"c", "carol", some ROLES.citizen, true⟩)],
          hostSocketId := "m", phase := Phase.day,
          dayStage := some DayStage.discussion, timer := some true,
          dayStageTimer := some true } NightDay.day).phase = Phase.ended ∧
    (PhaseService.phaseTimerFire
        { id := "R",
          players := [("m", ⟨"m", "mallory", some ROLES.mafia, true⟩),
            ("c", ⟨"c", "carol", some ROLES.citizen, true⟩)],
          hostSocketId := "m", phase := Phase.day,
          dayStage := some DayStage.discussion, timer := some true,
          dayStageTimer := some true } NightDay.day).winner = some Team.mafia ∧
    (PhaseService.phaseTimerFire
        { id := "R",
          players := [("m", ⟨"m", "mallory", some ROLES.mafia, true⟩),
            ("c", ⟨"c", "carol", some ROLES.citizen, true⟩)],
          hostSocketId := "m", phase := Phase.day,
          dayStage := some DayStage.discussion, timer := some true,
          dayStageTimer := some true } NightDay.day).dayStageTimer = some true ∧
    (PhaseService.phaseTimerFire
        { id := "R",
          players := [("m", ⟨"m", "mallory", some ROLES.mafia, true⟩),
            ("c", ⟨"c", "carol", some ROLES.citizen, true⟩)],
          hostSocketId := "m", phase := Phase.day,
          dayStage := some DayStage.discussion, timer := some true,
          dayStageTimer := some true } NightDay.day).timer = some false ∧
    mapGet
      (PhaseService.phaseTimerFire
        { id := "R",
          players := [("m", ⟨"m", "mallory", some ROLES.mafia, true⟩),
            ("c", ⟨"c", "carol", some ROLES.citizen, true⟩)],
          hostSocketId := "m", phase := Phase.day,
          dayStage := some DayStage.discussion, timer := some true,
          dayStageTimer := some true } NightDay.day).players "m" =
      some ⟨"m", "mallory", some ROLES.mafia, true⟩ := by
  refine ⟨rfl, rfl, rfl, rfl, rfl⟩

/-- Counterexample to C8 as stated:  calling `end` again on an already-ended
room with a different winner argument overwrites the recorded winner, so the
call is not a no-op on the winner field. -/
theorem end_overwrites_winner_counterexample :
    (PhaseService.end
        { id := "R", players := [("a", ⟨"a", "alice", none, false⟩)],
          hostSocketId := "a", phase := Phase.ended,
          winner := some Team.town } Team.mafia).winner = some Team.mafia ∧
    ({ id := "R", players := [("a", ⟨"a", "alice", none, false⟩)],
       hostSocketId := "a", phase := Phase.ended,
       winner := some Team.town } : Room).winner = some Team.town := by
  exact ⟨rfl, rfl⟩

lemma map_clear_roles_eq_self (l : List (String × Player))
    (h : ∀ e ∈ l, e.2.role = none) :
    l.map (fun e => (e.1, { e.2 with role := none })) = l := by
  induction l with
  | nil => rfl
  | cons e t ih =>
      obtain ⟨k, p⟩ := e
      obtain ⟨sid, un, role, alive⟩ := p
      have h0 := h (k, ⟨sid, un, role, alive⟩) (List.mem_cons_self _ _)
      simp only at h0
      subst h0
      rw [List.map_cons, ih (fun e he => h e (List.mem_cons_of_mem _ he))]

/-- C8 (amended).  On an already-ended room, `end` re-cancels and re-clears
the (absent) timers, re-clears every player's role, and overwrites the winner
with its argument; the phase stays `ended` and the identifier, host, players
(apart from the role field), stage and ledger are unchanged.  In particular
the call is a no-op exactly in the expected steady state: roles already
cleared, matching winner, timers already cleared. -/
theorem end_on_ended_room (room : Room) (w : Team) (h : room.phase = Phase.ended) :
    (PhaseService.end room w).phase = Phase.ended ∧
    (PhaseService.end room w).winner = some w ∧
    (PhaseService.end room w).timer = none ∧
    (PhaseService.end room w).dayStageTimer = none ∧
    (PhaseService.end room w).id = room.id ∧
    (PhaseService.end room w).hostSocketId = room.hostSocketId ∧
    (PhaseService.end room w).dayStage = room.dayStage ∧
    (PhaseService.end room w).votes = room.votes ∧
    (PhaseService.end room w).players =
      room.players.map (fun e => (e.1, { e.2 with role := none })) ∧
    ((∀ e ∈ room.players, e.2.role = none) → room.winner = some w →
      room.timer = none → room.dayStageTimer = none →
      PhaseService.end room w = room) := by
  refine ⟨rfl, rfl, rfl, rfl, rfl, rfl, rfl, rfl, rfl, ?_⟩
  intro hroles hw ht hdt
  obtain ⟨rid, players, host, phase, stage, timer, dst, winner, votes⟩ := room
  simp only at hroles hw ht hdt h
  subst h hw ht hdt
  unfold PhaseService.end
  rw [map_clear_roles_eq_self players hroles]

/-- Witness for C8 on a concrete already-ended room where the repeated call
is a genuine no-op. -/
theorem end_on_ended_room_witness :
    PhaseService.end
        { id := "R", players := [("a", ⟨"a", "alice", none, false⟩)],
          hostSocketId := "a", phase := Phase.ended,
          winner := some Team.town } Team.town =
      { id := "R", players := [("a", ⟨"a", "alice", none, false⟩)],
        hostSocketId := "a", phase := Phase.ended,
        winner := some Team.town } :=
  (end_on_ended_room _ Team.town rfl).2.2.2.2.2.2.2.2.2 (by decide) rfl rfl rfl

lemma mapGet_mapSet_self {α : Type} (l : List (String × α)) (k : String) (v : α) :
    mapGet (mapSet l k v) k = some v := by
  induction l with
  | nil => simp [mapSet, mapGet]
  | cons e t ih =>
      obtain ⟨a, b⟩ := e
      rw [mapSet_cons]
      by_cases h : a = k
      · rw [if_pos h]
        simp [mapGet]
      · rw [if_neg h]
        rw [show mapGet ((a, b) :: mapSet t k v) k =
          mapGet (mapSet t k v) k by simp [mapGet, h]]
        exact ih

lemma mapGet_mapSet_ne {α : Type} (l : List (String × α)) (k k' : String) (v : α)
    (h : k ≠ k') : mapGet (mapSet l k v) k' = mapGet l k' := by
  induction l with
  | nil => simp [mapSet, mapGet, h]
  | cons e t ih =>
      obtain ⟨a, b⟩ := e
      rw [mapSet_cons]
      by_cases ha : a = k
      · rw [if_pos ha]
        subst ha
        simp [mapGet, h]
      · rw [if_neg ha]
        by_cases ha' : a = k'
        · simp [mapGet, ha']
        · rw [show mapGet ((a, b) :: mapSet t k v) k' =
            mapGet (mapSet t k v) k' by simp [mapGet, ha'],
            show mapGet ((a, b) :: t) k' = mapGet t k' by simp [mapGet, ha']]
          exact ih

lemma startPhase_players (room : Room) (ph : NightDay) :
    (PhaseService.startPhase room ph).players = room.players := by
  unfold PhaseService.startPhase
  by_cases h : ph = NightDay.day <;> simp [h]

/-- On the ledger `{v1→T, v2→T, v3→U}` with `T ≠ U` and `T` a member,
`resolve` eliminates `T`:  the tally is `T:2, U:1`, the stable sort puts
`(T,2)` first, no tie, and the victim's alive flag is set to false. -/
lemma resolve_two_one (room : Room) (v1 v2 v3 T U : String) (pT : Player)
    (hv : room.votes = some [(v1, T), (v2, T), (v3, U)]) (hTU : T ≠ U)
    (hmem : mapGet room.players T = some pT) :
    VotingService.resolve room =
      (some (eliminationMsg pT.username),
       { room with players := mapSet room.players T { pT with alive := false } }) := by
  have htally : VotingService.tally ([(v1, T), (v2, T), (v3, U)].map Prod.snd) =
      [(T, 2), (U, 1)] := by
    simp [VotingService.tally, VotingService.bump, mapGet, mapSet, hTU]
  have hsort : List.insertionSort voteOrder [(T, 2), (U, 1)] = [(T, 2), (U, 1)] := by
    simp [List.insertionSort, List.orderedInsert, voteOrder]
  unfold VotingService.resolve
  rw [hv]
  dsimp only
  rw [if_neg (by simp), htally, hsort]
  dsimp only
  rw [if_neg (by decide : ¬ (2 = 1))]
  unfold VotingService.resolveTop
  dsimp only
  rw [hmem, hv]

/-- C6.  In a day phase whose ledger is `{V1→T, V2→T, V3→U}` with member `T`,
the phase-timer resolution step eliminates `T` (its alive flag becomes false
in the resulting room), and when that elimination leaves zero alive
mafia-faction players the very same step sets `phase = ended` with
`winner = town` — the votes are resolved and applied before the win check. -/
theorem dayResolution_eliminates_and_ends (room : Room) (v1 v2 v3 T U : String)
    (pT : Player) (hv : room.votes = some [(v1, T), (v2, T), (v3, U)])
    (hTU : T ≠ U) (hmem : mapGet room.players T = some pT) :
    mapGet (PhaseService.phaseTimerFire room NightDay.day).players T =
      some { pT with alive := false } ∧
    (aliveMafiaCount (mapSet room.players T { pT with alive := false }) = 0 →
      (PhaseService.phaseTimerFire room NightDay.day).phase = Phase.ended ∧
      (PhaseService.phaseTimerFire room NightDay.day).winner = some Team.town) := by
  have hres := resolve_two_one { room with timer := some false } v1 v2 v3 T U pT hv hTU hmem
  have hfire : PhaseService.phaseTimerFire room NightDay.day =
      (match WinService.check
          { room with timer := some false,
                      players := mapSet room.players T { pT with alive := false } } with
       | some w =>
          { room with timer := some false,
                      players := mapSet room.players T { pT with alive := false },
                      phase := Phase.ended, winner := some w }
       | none =>
          PhaseService.startPhase
            { room with timer := some false,
                        players := mapSet room.players T { pT with alive := false } }
            NightDay.night) := by
    unfold PhaseService.phaseTimerFire LobbyGateway.resolveDayRoom
    dsimp only
    rw [if_pos rfl, hres]
    rfl
  constructor
  · rw [hfire]
    cases hcheck : WinService.check
        { room with timer := some false,
                    players := mapSet room.players T { pT with alive := false } } with
    | some w =>
        dsimp only
        exact mapGet_mapSet_self room.players T { pT with alive := false }
    | none =>
        dsimp only
        rw [startPhase_players]
        exact mapGet_mapSet_self room.players T { pT with alive := false }
  · intro hmafia
    have hcheck : WinService.check
        { room with timer := some false,
                    players := mapSet room.players T { pT with alive := false } } =
        some Team.town := by
      show WinService.checkPlayers (mapSet room.players T { pT with alive := false }) = _
      rw [checkPlayers_counts, if_pos hmafia]
    rw [hfire, hcheck]
    exact ⟨rfl, rfl⟩

/-- Witness for C6:  three players, one mafia `tom`; votes `{a→tom, b→tom,
c→uma}`; the day resolution step kills `tom`, mafia drops to zero, the room
ends with a town win in the same step. -/
theorem dayResolution_eliminates_and_ends_witness :
    mapGet
        (PhaseService.phaseTimerFire
          { id := "R",
            players := [("t", ⟨"t", "tom", some ROLES.mafia, true⟩),
              ("u", ⟨"u", "uma", some ROLES.citizen, true⟩),
              ("c", ⟨"c", "carl", some ROLES.citizen, true⟩)],
            hostSocketId := "t", phase := Phase.day,
            dayStage := some DayStage.voting, timer := some true,
            dayStageTimer := some false,
            votes := some [("u", "t"), ("c", "t"), ("t", "u")] }
          NightDay.day).players "t" =
      some ⟨"t", "tom", some ROLES.mafia, false⟩ ∧
    (PhaseService.phaseTimerFire
        { id := "R",
          players := [("t", ⟨"t", "tom", some ROLES.mafia, true⟩),
            ("u", ⟨"u", "uma", some ROLES.citizen, true⟩),
            ("c", ⟨"c", "carl", some ROLES.citizen, true⟩)],
          hostSocketId := "t", phase := Phase.day,
          dayStage := some DayStage.voting, timer := some true,
          dayStageTimer := some false,
          votes := some [("u", "t"), ("c", "t"), ("t", "u")] }
        NightDay.day).phase = Phase.ended ∧
    (PhaseService.phaseTimerFire
        { id := "R",
          players := [("t", ⟨"t", "tom", some ROLES.mafia, true⟩),
            ("u", ⟨"u", "uma", some ROLES.citizen, true⟩),
            ("c", ⟨"c", "carl", some ROLES.citizen, true⟩)],
          hostSocketId := "t", phase := Phase.day,
          dayStage := some DayStage.voting, timer := some true,
          dayStageTimer := some false,
          votes := some [("u", "t"), ("c", "t"), ("t", "u")] }
        NightDay.day).winner = some Team.town := by
  have h := dayResolution_eliminates_and_ends
    { id := "R",
      players := [("t", ⟨"t", "tom", some ROLES.mafia, true⟩),
        ("u", ⟨"u", "uma", some ROLES.citizen, true⟩),
        ("c", ⟨"c", "carl", some ROLES.citizen, true⟩)],
      hostSocketId := "t", phase := Phase.day,
      dayStage := some DayStage.voting, timer := some true,
      dayStageTimer := some false,
      votes := some [("u", "t"), ("c", "t"), ("t", "u")] }
    "u" "c" "t" "t" "u" ⟨"t", "tom", some ROLES.mafia, true⟩ rfl (by decide) rfl
  exact ⟨h.1, (h.2 (by decide)).1, (h.2 (by decide)).2⟩

/-! ## Room registry (`room.manager.ts`) and gateway
(`src/gateway/lobby.gateway.ts`).

Handlers become functions `GState → ... → GState × List Emit`; an early
`return` is `(s, [])` — no state change, no notification.  `generateRoomId()`
is modelled by passing the generated identifier as an argument, and the
role-draw shuffle by a `shuffle` function argument. -/

inductive Emit where
  | roomJoined (target roomId : String)
  | roomState (roomId : String)
  | systemMessage (roomId msg : String)
  | chatMessage (roomId sender msg : String)
  | roleAssigned (target : String)
  | voteUpdate (roomId : String)
deriving DecidableEq, Repr

/-- The process-wide `rooms` map of `RoomManager`. -/
structure GState where
  rooms : List (String × Room)
deriving DecidableEq, Repr

def RoomManager.get (s : GState) (roomId : String) : Option Room :=
  mapGet s.rooms roomId

def RoomManager.set (s : GState) (room : Room) : GState :=
  ⟨mapSet s.rooms room.id room⟩

def RoomManager.delete (s : GState) (roomId : String) : GState :=
  ⟨mapDelete s.rooms roomId⟩

/-- `findBySocket`:  first room (in registry insertion order) whose player map
has the socket id. -/
def RoomManager.findBySocket : List (String × Room) → String → Option Room
  | [], _ => none
  | (_, room) :: t, socketId =>
      if mapHas room.players socketId then some room
      else RoomManager.findBySocket t socketId

/-- `handleCreateRoom` (the generated `roomId` is an argument). -/
def LobbyGateway.handleCreateRoom (s : GState) (clientId username roomId : String) :
    GState × List Emit :=
  let room : Room :=
    { id := roomId,
      players := mapSet [] clientId ⟨clientId, username, none, true⟩,
      hostSocketId := clientId, phase := Phase.lobby }
  (RoomManager.set s room,
   [Emit.roomJoined clientId roomId, Emit.roomState roomId,
    Emit.systemMessage roomId (username ++ " created the room")])

/-- `handleJoinRoom`:  dropped when the room is unknown or not in lobby. -/
def LobbyGateway.handleJoinRoom (s : GState) (clientId roomId username : String) :
    GState × List Emit :=
  match RoomManager.get s roomId with
  | none => (s, [])
  | some room =>
      if room.phase ≠ Phase.lobby then (s, [])
      else
        (RoomManager.set s
          { room with
              players := mapSet room.players clientId ⟨clientId, username, none, true⟩ },
         [Emit.roomJoined clientId roomId, Emit.roomState roomId,
          Emit.systemMessage roomId (username ++ " joined the lobby")])

/-- In-place role mutation of the gateway draw, pushed back through the
player map:  each mapped player object receives the role of its position in
the shuffled array. -/
def LobbyGateway.applyAssignedRoles (room : Room)
    (shuffle : List Player → List Player) : Room :=
  let assigned := LobbyGateway.assignRoles (shuffle (room.players.map Prod.snd))
  { room with
      players := room.players.map (fun e =>
        match assigned.find? (fun p => p.socketId == e.1) with
        | some p => (e.1, p)
        | none => e) }

/-- `handleStartGame`:  dropped when the requester is in no room, the room is
not in lobby, or the requester is not the host; otherwise draw roles, emit
them, announce the start, and enter night via `startPhase` (whose
`onStateChange` fires twice for a night entry) plus the final room-state
broadcast. -/
def LobbyGateway.handleStartGame (s : GState) (clientId : String)
    (shuffle : List Player → List Player) : GState × List Emit :=
  match RoomManager.findBySocket s.rooms clientId with
  | none => (s, [])
  | some room =>
      if room.phase ≠ Phase.lobby then (s, [])
      else
        match mapGet room.players clientId with
        | none => (s, [])
        | some player =>
            if room.hostSocketId ≠ clientId then (s, [])
            else
              let room1 := LobbyGateway.applyAssignedRoles room shuffle
              let room2 := PhaseService.startPhase room1 NightDay.night
              (RoomManager.set s room2,
               room1.players.map (fun e => Emit.roleAssigned e.1) ++
                [Emit.systemMessage room.id (player.username ++ " started the game"),
                 Emit.roomState room.id, Emit.roomState room.id,
                 Emit.roomState room.id])

/-- `handleVote`:  dropped outside `day`/`voting`, for an unknown or dead
voter, a missing or dead target, or a self-vote; otherwise records the vote
and emits the vote state. -/
def LobbyGateway.handleVote (s : GState) (clientId targetName : String) :
    GState × List Emit :=
  match RoomManager.findBySocket s.rooms clientId with
  | none => (s, [])
  | some room =>
      if room.phase ≠ Phase.day ∨ room.dayStage ≠ some DayStage.voting then (s, [])
      else
        match mapGet room.players clientId with
        | none => (s, [])
        | some voter =>
            if voter.alive = false then (s, [])
            else
              match (room.players.map Prod.snd).find?
                  (fun p => p.username == targetName && p.alive) with
              | none => (s, [])
              | some target =>
                  if target.socketId = clientId then (s, [])
                  else
                    (RoomManager.set s
                      (VotingService.vote room clientId target.socketId),
                     [Emit.voteUpdate room.id])

lemma findBySocket_mem :
    ∀ (rooms : List (String × Room)) (c : String) (room : Room),
      RoomManager.findBySocket rooms c = some room → mapHas room.players c = true
  | [], _, _, h => by cases h
  | (k, r) :: t, c, room, h => by
      unfold RoomManager.findBySocket at h
      by_cases hr : mapHas r.players c = true
      · rw [if_pos hr] at h
        cases h
        exact hr
      · rw [if_neg hr] at h
        exact findBySocket_mem t c room h

/-- C7.  Every invalid request is dropped with no state change and no
notification:  joining an unknown room or a room not in lobby; starting a
game from no room, from a non-lobby room, or as a non-host; voting from no
room, outside `day`/`voting`, as a dead voter, for a missing/dead target, or
for oneself; and a role draw when some player already holds a role is a
no-op on the player list. -/
theorem invalid_requests_dropped :
    (∀ (s : GState) (c rid u : String), RoomManager.get s rid = none →
        LobbyGateway.handleJoinRoom s c rid u = (s, [])) ∧
    (∀ (s : GState) (c rid u : String) (room : Room),
        RoomManager.get s rid = some room → room.phase ≠ Phase.lobby →
        LobbyGateway.handleJoinRoom s c rid u = (s, [])) ∧
    (∀ (s : GState) (c : String) (σ : List Player → List Player),
        RoomManager.findBySocket s.rooms c = none →
        LobbyGateway.handleStartGame s c σ = (s, [])) ∧
    (∀ (s : GState) (c : String) (σ : List Player → List Player) (room : Room),
        RoomManager.findBySocket s.rooms c = some room → room.phase ≠ Phase.lobby →
        LobbyGateway.handleStartGame s c σ = (s, [])) ∧
    (∀ (s : GState) (c : String) (σ : List Player → List Player) (room : Room),
        RoomManager.findBySocket s.rooms c = some room → room.hostSocketId ≠ c →
        LobbyGateway.handleStartGame s c σ = (s, [])) ∧
    (∀ (s : GState) (c tn : String),
        RoomManager.findBySocket s.rooms c = none →
        LobbyGateway.handleVote s c tn = (s, [])) ∧
    (∀ (s : GState) (c tn : String) (room : Room),
        RoomManager.findBySocket s.rooms c = some room →
        (room.phase ≠ Phase.day ∨ room.dayStage ≠ some DayStage.voting) →
        LobbyGateway.handleVote s c tn = (s, [])) ∧
    (∀ (s : GState) (c tn : String) (room : Room) (voter : Player),
        RoomManager.findBySocket s.rooms c = some room →
        room.phase = Phase.day → room.dayStage = some DayStage.voting →
        mapGet room.players c = some voter → voter.alive = false →
        LobbyGateway.handleVote s c tn = (s, [])) ∧
    (∀ (s : GState) (c tn : String) (room : Room),
        RoomManager.findBySocket s.rooms c = some room →
        room.phase = Phase.day → room.dayStage = some DayStage.voting →
        (room.players.map Prod.snd).find?
          (fun p => p.username == tn && p.alive) = none →
        LobbyGateway.handleVote s c tn = (s, [])) ∧
    (∀ (s : GState) (c tn : String) (room : Room) (target : Player),
        RoomManager.findBySocket s.rooms c = some room →
        room.phase = Phase.day → room.dayStage = some DayStage.voting →
        (room.players.map Prod.snd).find?
          (fun p => p.username == tn && p.alive) = some target →
        target.socketId = c →
        LobbyGateway.handleVote s c tn = (s, [])) ∧
    (∀ ps : List Player, ps.any (fun p => p.role.isSome) = true →
        LobbyGateway.assignRoles ps = ps) := by
  refine ⟨?_, ?_, ?_, ?_, ?_, ?_, ?_, ?_, ?_, ?_, ?_⟩
  · intro s c rid u h
    unfold LobbyGateway.handleJoinRoom
    rw [h]
  · intro s c rid u room h hphase
    unfold LobbyGateway.handleJoinRoom
    rw [h]
    dsimp only
    rw [if_pos hphase]
  · intro s c σ h
    unfold LobbyGateway.handleStartGame
    rw [h]
  · intro s c σ room h hphase
    unfold LobbyGateway.handleStartGame
    rw [h]
    dsimp only
    rw [if_pos hphase]
  · intro s c σ room h hhost
    unfold LobbyGateway.handleStartGame
    rw [h]
    dsimp only
    by_cases hphase : room.phase ≠ Phase.lobby
    · rw [if_pos hphase]
    · rw [if_neg hphase]
      have hmem := findBySocket_mem s.rooms c room h
      unfold mapHas at hmem
      obtain ⟨p, hp⟩ := Option.isSome_iff_exists.1 hmem
      rw [hp]
      dsimp only
      rw [if_pos hhost]
  · intro s c tn h
    unfold LobbyGateway.handleVote
    rw [h]
  · intro s c tn room h hcond
    unfold LobbyGateway.handleVote
    rw [h]
    dsimp only
    rw [if_pos hcond]
  · intro s c tn room voter h hphase hstage hv hdead
    unfold LobbyGateway.handleVote
    rw [h]
    dsimp only
    rw [if_neg (by simp [hphase, hstage]), hv]
    dsimp only
    rw [if_pos hdead]
  · intro s c tn room h hphase hstage hfind
    unfold LobbyGateway.handleVote
    rw [h]
    dsimp only
    rw [if_neg (by simp [hphase, hstage])]
    have hmem := findBySocket_mem s.rooms c room h
    unfold mapHas at hmem
    obtain ⟨p, hp⟩ := Option.isSome_iff_exists.1 hmem
    rw [hp]
    dsimp only
    by_cases hdead : p.alive = false
    · rw [if_pos hdead]
    · rw [if_neg hdead, hfind]
  · intro s c tn room target h hphase hstage hfind hself
    unfold LobbyGateway.handleVote
    rw [h]
    dsimp only
    rw [if_neg (by simp [hphase, hstage])]
    have hmem := findBySocket_mem s.rooms c room h
    unfold mapHas at hmem
    obtain ⟨p, hp⟩ := Option.isSome_iff_exists.1 hmem
    rw [hp]
    dsimp only
    by_cases hdead : p.alive = false
    · rw [if_pos hdead]
    · rw [if_neg hdead, hfind]
      dsimp only
      rw [if_pos hself]
  · intro ps h
    unfold LobbyGateway.assignRoles
    rw [if_pos h]

/-- Witness for C7:  each invalid-request case evaluated on a concrete
registry, dropped with no state change and an empty emit list. -/
theorem invalid_requests_dropped_witness :
    LobbyGateway.handleJoinRoom ⟨[]⟩ "c" "A" "u" = (⟨[]⟩, []) ∧
    LobbyGateway.handleJoinRoom
        ⟨[("A", { id := "A", players := [("h", ⟨"h", "hana", none, true⟩)],
                  hostSocketId := "h", phase := Phase.night })]⟩ "c" "A" "u" =
      (⟨[("A", { id := "A", players := [("h", ⟨"h", "hana", none, true⟩)],
                 hostSocketId := "h", phase := Phase.night })]⟩, []) ∧
    LobbyGateway.handleStartGame ⟨[]⟩ "c" id = (⟨[]⟩, []) ∧
    LobbyGateway.handleStartGame
        ⟨[("A", { id := "A", players := [("h", ⟨"h", "hana", none, true⟩)],
                  hostSocketId := "h", phase := Phase.night })]⟩ "h" id =
      (⟨[("A", { id := "A", players := [("h", ⟨"h", "hana", none, true⟩)],
                 hostSocketId := "h", phase := Phase.night })]⟩, []) ∧
    LobbyGateway.handleStartGame
        ⟨[("B", { id := "B",
                  players := [("h", ⟨"h", "hana", none, true⟩),
                    ("g", ⟨"g", "gabe", none, true⟩)],
                  hostSocketId := "h", phase := Phase.lobby })]⟩ "g" id =
      (⟨[("B", { id := "B",
                 players := [("h", ⟨"h", "hana", none, true⟩),
                   ("g", ⟨"g", "gabe", none, true⟩)],
                 hostSocketId := "h", phase := Phase.lobby })]⟩, []) ∧
    LobbyGateway.handleVote ⟨[]⟩ "c" "tia" = (⟨[]⟩, []) ∧
    LobbyGateway.handleVote
        ⟨[("D", { id := "D", players := [("h", ⟨"h", "hana", none, true⟩)],
                  hostSocketId := "h", phase := Phase.day,
                  dayStage := some DayStage.discussion })]⟩ "h" "tia" =
      (⟨[("D", { id := "D", players := [("h", ⟨"h", "hana", none, true⟩)],
                 hostSocketId := "h", phase := Phase.day,
                 dayStage := some DayStage.discussion })]⟩, []) ∧
    LobbyGateway.handleVote
        ⟨[("V", { id := "V",
                  players := [("h", ⟨"h", "hana", none, true⟩),
                    ("d", ⟨"d", "dre", none, false⟩),
                    ("t", ⟨"t", "tia", none, true⟩)],
                  hostSocketId := "h", phase := Phase.day,
                  dayStage := some DayStage.voting })]⟩ "d" "tia" =
      (⟨[("V", { id := "V",
                 players := [("h", ⟨"h", "hana", none, true⟩),
                   ("d", ⟨"d", "dre", none, false⟩),
                   ("t", ⟨"t", "tia", none, true⟩)],
                 hostSocketId := "h", phase := Phase.day,
                 dayStage := some DayStage.voting })]⟩, []) ∧
    LobbyGateway.handleVote
        ⟨[("V", { id := "V",
                  players := [("h", ⟨"h", "hana", none, true⟩),
                    ("d", ⟨"d", "dre", none, false⟩),
                    ("t", ⟨"t", "tia", none, true⟩)],
                  hostSocketId := "h", phase := Phase.day,
                  dayStage := some DayStage.voting })]⟩ "h" "zoe" =
      (⟨[("V", { id := "V",
                 players := [("h", ⟨"h", "hana", none, true⟩),
                   ("d", ⟨"d", "dre", none, false⟩),
                   ("t", ⟨"t", "tia", none, true⟩)],
                 hostSocketId := "h", phase := Phase.day,
                 dayStage := some DayStage.voting })]⟩, []) ∧
    LobbyGateway.handleVote
        ⟨[("V", { id := "V",
                  players := [("h", ⟨"h", "hana", none, true⟩),
                    ("d", ⟨"d", "dre", none, false⟩),
                    ("t", ⟨"t", "tia", none, true⟩)],
                  hostSocketId := "h", phase := Phase.day,
                  dayStage := some DayStage.voting })]⟩ "h" "hana" =
      (⟨[("V", { id := "V",
                 players := [("h", ⟨"h", "hana", none, true⟩),
                   ("d", ⟨"d", "dre", none, false⟩),
                   ("t", ⟨"t", "tia", none, true⟩)],
                 hostSocketId := "h", phase := Phase.day,
                 dayStage := some DayStage.voting })]⟩, []) ∧
    LobbyGateway.assignRoles [⟨"a", "ann", some ROLES.mafia, true⟩] =
      [⟨"a", "ann", some ROLES.mafia, true⟩] := by
  refine ⟨?_, ?_, ?_, ?_, ?_, ?_, ?_, ?_, ?_, ?_, ?_⟩
  · exact invalid_requests_dropped.1 _ "c" "A" "u" rfl
  · exact invalid_requests_dropped.2.1 _ "c" "A" "u" _ rfl (by decide)
  · exact invalid_requests_dropped.2.2.1 _ "c" id rfl
  · exact invalid_requests_dropped.2.2.2.1 _ "h" id _ rfl (by decide)
  · exact invalid_requests_dropped.2.2.2.2.1 _ "g" id _ rfl (by decide)
  · exact invalid_requests_dropped.2.2.2.2.2.1 _ "c" "tia" rfl
  · exact invalid_requests_dropped.2.2.2.2.2.2.1 _ "h" "tia" _ rfl
      (Or.inr (by decide))
  · exact invalid_requests_dropped.2.2.2.2.2.2.2.1 _ "d" "tia" _
      ⟨"d", "dre", none, false⟩ rfl rfl rfl rfl rfl
  · exact invalid_requests_dropped.2.2.2.2.2.2.2.2.1 _ "h" "zoe" _ rfl rfl rfl rfl
  · exact invalid_requests_dropped.2.2.2.2.2.2.2.2.2.1 _ "h" "hana" _
      ⟨"h", "hana", none, true⟩ rfl rfl rfl rfl rfl
  · exact invalid_requests_dropped.2.2.2.2.2.2.2.2.2.2 _ (by decide)

/-- Counterexample to C9 as stated:  `c1` creates room `A`, `c2` creates room
`B`, then `c1` joins `B` while still a member of `A` — afterwards the
identity `c1` is present in two rooms of the registry. -/
theorem join_two_rooms_counterexample :
    ((LobbyGateway.handleJoinRoom
        (LobbyGateway.handleCreateRoom
          (LobbyGateway.handleCreateRoom ⟨[]⟩ "c1" "ann" "A").1
          "c2" "ben" "B").1
        "c1" "B" "ann").1).rooms.countP
      (fun e => mapHas e.2.players "c1") = 2 := by
  rfl

/-- C9 (amended).  A player identity may belong to several rooms at once:
`join_room` by an identity that is already a member of some other room adds
it to the target lobby without removing it from the old room, leaving the
identity present in both; identity lookups resolve to the first such room in
registry insertion order. -/
theorem join_keeps_prior_membership (s : GState) (c rid ridA u : String)
    (room roomA : Room) (hid : room.id = rid) (hne : ridA ≠ rid)
    (hget : RoomManager.get s rid = some room) (hlobby : room.phase = Phase.lobby)
    (hgetA : RoomManager.get s ridA = some roomA)
    (hmem : mapHas roomA.players c = true) :
    RoomManager.get (LobbyGateway.handleJoinRoom s c rid u).1 rid =
      some { room with players := mapSet room.players c ⟨c, u, none, true⟩ } ∧
    mapHas (mapSet room.players c ⟨c, u, none, true⟩) c = true ∧
    RoomManager.get (LobbyGateway.handleJoinRoom s c rid u).1 ridA = some roomA ∧
    mapHas roomA.players c = true := by
  have hstep : LobbyGateway.handleJoinRoom s c rid u =
      (RoomManager.set s
        { room with players := mapSet room.players c ⟨c, u, none, true⟩ },
       [Emit.roomJoined c rid, Emit.roomState rid,
        Emit.systemMessage rid (u ++ " joined the lobby")]) := by
    unfold LobbyGateway.handleJoinRoom
    rw [hget]
    dsimp only
    rw [if_neg (by simp [hlobby])]
  rw [hstep]
  refine ⟨?_, ?_, ?_, hmem⟩
  · show mapGet (mapSet s.rooms room.id _) rid = _
    rw [hid, mapGet_mapSet_self]
  · unfold mapHas
    rw [mapGet_mapSet_self]
    rfl
  · show mapGet (mapSet s.rooms room.id _) ridA = _
    rw [hid, mapGet_mapSet_ne _ _ _ _ (fun h => hne h.symm)]
    exact hgetA

/-- Witness for C9 (amended):  with `c1` already in room `A`, joining lobby
`B` leaves `c1` a member of both `A` and `B`. -/
theorem join_keeps_prior_membership_witness :
    RoomManager.get
        (LobbyGateway.handleJoinRoom
          ⟨[("A", { id := "A", players := [("c1", ⟨"c1", "ann", none, true⟩)],
                    hostSocketId := "c1", phase := Phase.lobby }),
            ("B", { id := "B", players := [("c2", ⟨"c2", "ben", none, true⟩)],
                    hostSocketId := "c2", phase := Phase.lobby })]⟩
          "c1" "B" "ann").1 "B" =
      some { id := "B",
             players := mapSet [("c2", ⟨"c2", "ben", none, true⟩)] "c1"
               ⟨"c1", "ann", none, true⟩,
             hostSocketId := "c2", phase := Phase.lobby } ∧
    mapHas (mapSet [("c2", (⟨"c2", "ben", none, true⟩ : Player))] "c1"
      (⟨"c1", "ann", none, true⟩ : Player)) "c1" = true ∧
    RoomManager.get
        (LobbyGateway.handleJoinRoom
          ⟨[("A", { id := "A", players := [("c1", ⟨"c1", "ann", none, true⟩)],
                    hostSocketId := "c1", phase := Phase.lobby }),
            ("B", { id := "B", players := [("c2", ⟨"c2", "ben", none, true⟩)],
                    hostSocketId := "c2", phase := Phase.lobby })]⟩
          "c1" "B" "ann").1 "A" =
      some { id := "A", players := [("c1", ⟨"c1", "ann", none, true⟩)],
             hostSocketId := "c1", phase := Phase.lobby } ∧
    mapHas ({ id := "A", players := [("c1", ⟨"c1", "ann", none, true⟩)],
              hostSocketId := "c1", phase := Phase.lobby } : Room).players "c1" =
      true :=
  join_keeps_prior_membership
    ⟨[("A", { id := "A", players := [("c1", ⟨"c1", "ann", none, true⟩)],
              hostSocketId := "c1", phase := Phase.lobby }),
      ("B", { id := "B", players := [("c2", ⟨"c2", "ben", none, true⟩)],
              hostSocketId := "c2", phase := Phase.lobby })]⟩
    "c1" "B" "A" "ann"
    { id := "B", players := [("c2", ⟨"c2", "ben", none, true⟩)],
      hostSocketId := "c2", phase := Phase.lobby }
    { id := "A", players := [("c1", ⟨"c1", "ann", none, true⟩)],
      hostSocketId := "c1", phase := Phase.lobby }
    rfl (by decide) rfl rfl rfl (by decide)
